import Mathlib

/-!
# showrunner: the `conferences` package

A shallow embedding of `conferences/auth.go` (`Data`, `VerifyToken`, `mapClaims`) and of
the `SponsorshipLevel` database mapping of `conferences/types.go`, with the properties
of the specification stated and settled over it.

Conventions of the embedding:

* a Go `interface{}` value is a `GoValue`, tagged with its dynamic type;
* a Go `error` is a `GoError`; a possibly-nil error or pointer is an `Option`;
* a Go run-time panic is the `Except.error` outcome of a computation, so that a function
  that can abort has type `Except TypeAssertionError _`;
* a Go slice keeps the distinction between the nil slice and an allocated one;
* calls to the outside world (`oidc`, `log`) are recorded, in order, in a list of `Call`s.
-/

namespace Conferences

/-! ## Go values -/

/-- A `float64`, carried by its IEEE-754 binary64 bit pattern. The program only stores and
copies such values, it never computes with them. -/
structure Float64 where
  bits : Nat
  deriving DecidableEq, Repr

/-- A byte, the element type of `[]byte`. -/
abbrev Byte := Fin 256

/-- A Go `error` value, identified by its message. -/
structure GoError where
  msg : String
  deriving DecidableEq, Repr

/-- A value of the empty interface `interface{}`: the untyped `nil`, or a value together
with its dynamic type. `slice` is a `[]interface{}`, `object` a `map[string]interface{}`,
`bytes` a `[]byte`. -/
inductive GoValue where
  | nil
  | bool (b : Bool)
  | float64 (x : Float64)
  | string (s : String)
  | int64 (i : Int)
  | bytes (b : List Byte)
  | slice (xs : List GoValue)
  | object (kv : List (String × GoValue))

/-- The dynamic types a `GoValue` can have. -/
inductive GoType where
  | bool
  | float64
  | string
  | int64
  | bytes
  | sliceInterface
  | mapStringInterface
  deriving DecidableEq, Repr

/-- The dynamic type of an interface value; `none` for the nil interface. -/
def GoValue.dynType : GoValue → Option GoType
  | .nil => none
  | .bool _ => some .bool
  | .float64 _ => some .float64
  | .string _ => some .string
  | .int64 _ => some .int64
  | .bytes _ => some .bytes
  | .slice _ => some .sliceInterface
  | .object _ => some .mapStringInterface

/-- The value of a failed single-result type assertion `v.(T)`, Go's
`runtime.TypeAssertionError`: it records the dynamic type found (`none` for a nil
interface) and the type asserted, and nothing else. -/
structure TypeAssertionError where
  concrete : Option GoType
  asserted : GoType
  deriving DecidableEq, Repr

/-- The type assertion `v.(float64)`. -/
def assertFloat64 (v : GoValue) : Except TypeAssertionError Float64 :=
  match v with
  | .float64 x => .ok x
  | _ => .error ⟨v.dynType, .float64⟩

/-- The type assertion `v.(string)`. -/
def assertString (v : GoValue) : Except TypeAssertionError String :=
  match v with
  | .string s => .ok s
  | _ => .error ⟨v.dynType, .string⟩

/-- The type assertion `v.([]interface{})`. -/
def assertSlice (v : GoValue) : Except TypeAssertionError (List GoValue) :=
  match v with
  | .slice xs => .ok xs
  | _ => .error ⟨v.dynType, .sliceInterface⟩

/-- A Go slice: the nil slice, or an allocated slice with its elements. -/
inductive GoSlice (α : Type) where
  | nil
  | mk (elems : List α)
  deriving DecidableEq, Repr

/-- The elements of a slice; the nil slice has none. -/
def GoSlice.toList {α : Type} : GoSlice α → List α
  | .nil => []
  | .mk xs => xs

/-- The test `s == nil` on slices. -/
def GoSlice.isNil {α : Type} : GoSlice α → Bool
  | .nil => true
  | .mk _ => false

/-- The builtin `append(s, x)`: the result is always an allocated slice. -/
def GoSlice.append {α : Type} (s : GoSlice α) (x : α) : GoSlice α :=
  .mk (s.toList ++ [x])

/-- The type `jwt.MapClaims`, a `map[string]interface{}`, as an association list in which
the first binding of a key is the one the map holds. -/
abbrev MapClaims := List (String × GoValue)

/-- The map index expression `values[k]`: the nil interface when the key is absent. -/
def MapClaims.index (values : MapClaims) (k : String) : GoValue :=
  (values.lookup k).getD GoValue.nil

/-! ## auth.go -/

/-- The struct `Data`; the default of each field is the zero value of its Go type. -/
structure Data where
  Exp : Float64 := ⟨0⟩
  Iat : Float64 := ⟨0⟩
  IdentityProvider : String := ""
  UserDetails : String := ""
  UserID : String := ""
  UserRoles : GoSlice String := GoSlice.nil
  deriving DecidableEq, Repr

/-- The type `auth.UID`, a string. -/
abbrev UID := String

/-- What `VerifyToken` reads of an `*oidc.IDToken`: the `Subject` field, and the decoded
claim set of the token's payload. -/
structure IDToken where
  Subject : String
  claims : MapClaims

/-- The `oidc` package as seen by `VerifyToken`: two arbitrary fallible steps.
`NewProvider ctx issuer` stands for `oidc.NewProvider`, and `Verify p clientID ctx token`
for `p.Verifier(&oidc.Config{ClientID: clientID}).Verify(ctx, token)`. -/
structure Oidc (Ctx Provider : Type) where
  NewProvider : Ctx → String → Except GoError Provider
  Verify : Provider → String → Ctx → String → Except GoError IDToken

/-- A call made to the outside world. -/
inductive Call where
  | NewProvider (issuer : String)
  | Verify (clientID : String) (token : String)
  | Println (label : String) (err : GoError)
  deriving DecidableEq, Repr

/-- The issuer URL that `VerifyToken` passes to `oidc.NewProvider`. -/
def issuerURL : String := "https://dev-7217861.okta.com"

/-- The client id that `VerifyToken` configures the verifier with. -/
def clientID : String := "0oa26dc0cgcjzHwsJ5d6"

/-- The three results of `VerifyToken`. -/
structure AuthResult where
  uid : UID
  data : Option Data
  err : Option GoError
  deriving DecidableEq, Repr

/-- The function `VerifyToken`: its three results, and the calls it made, in order. -/
def VerifyToken {Ctx Provider : Type} (oidc : Oidc Ctx Provider) (ctx : Ctx)
    (token : String) : AuthResult × List Call :=
  match oidc.NewProvider ctx issuerURL with
  | .error err =>
    (⟨"", none, some err⟩,
      [Call.NewProvider issuerURL, Call.Println "provider create error" err])
  | .ok provider =>
    match oidc.Verify provider clientID ctx token with
    | .error err =>
      (⟨"", none, some err⟩,
        [Call.NewProvider issuerURL, Call.Verify clientID token,
          Call.Println "verify token error: " err])
    | .ok idt =>
      let d : Data := {}
      (⟨idt.Subject, some d, none⟩, [Call.NewProvider issuerURL, Call.Verify clientID token])

/-- The loop body of `mapClaims`: `rstr := role.(string)` and then
`d.UserRoles = append(d.UserRoles, rstr)`. -/
def mapClaimsRole (d : Data) (role : GoValue) : Except TypeAssertionError Data := do
  let rstr ← assertString role
  pure { d with UserRoles := d.UserRoles.append rstr }

/-- The loop `for _, role := range roles` of `mapClaims`, from the state `d`. -/
def mapClaimsRoles (d : Data) : List GoValue → Except TypeAssertionError Data
  | [] => pure d
  | role :: rest => do
    let d ← mapClaimsRole d role
    mapClaimsRoles d rest

/-- The function `mapClaims`. It returns the `Data` it built, or aborts with the panic of
the first type assertion that fails. -/
def mapClaims (values : MapClaims) : Except TypeAssertionError Data := do
  let d : Data := {}
  let exp ← assertFloat64 (values.index "exp")
  let d := { d with Exp := exp }
  let iat ← assertFloat64 (values.index "iat")
  let d := { d with Iat := iat }
  let idp ← assertString (values.index "identityProvider")
  let d := { d with IdentityProvider := idp }
  let userId ← assertString (values.index "userId")
  let d := { d with UserID := userId }
  let userDetails ← assertString (values.index "userDetails")
  let d := { d with UserDetails := userDetails }
  let roles ← assertSlice (values.index "userRoles")
  mapClaimsRoles d roles

/-- The exponent field of a `float64`: bits 52 to 62. -/
def Float64.exponent (x : Float64) : Nat :=
  (x.bits / 2 ^ 52) % 2048

/-- The fraction field of a `float64`: bits 0 to 51. -/
def Float64.mantissa (x : Float64) : Nat :=
  x.bits % 2 ^ 52

/-- The sign bit of a `float64`: bit 63. -/
def Float64.signBit (x : Float64) : Nat :=
  (x.bits / 2 ^ 63) % 2

/-- The test `math.IsInf(x, 0) || math.IsNaN(x)`: the exponent field is all ones. -/
def Float64.isInfOrNaN (x : Float64) : Bool :=
  x.exponent == 2047

/-- The text `strconv.FormatFloat` gives for an infinity or a NaN. -/
def Float64.formatInfOrNaN (x : Float64) : String :=
  if x.mantissa ≠ 0 then "NaN" else if x.signBit = 1 then "-Inf" else "+Inf"

/-- The encoder of `encoding/json` on a `float64`: an infinity or a NaN is refused with an
`UnsupportedValueError`, any other value is written as a JSON number. -/
def marshalFloat64 (x : Float64) : Except GoError GoValue :=
  if x.isInfOrNaN then .error ⟨"json: unsupported value: " ++ x.formatInfOrNaN⟩
  else .ok (GoValue.float64 x)

/-- The function `json.Marshal` of `encoding/json` on a `Data`: the error it returns, or
the JSON object it writes, under the field names of the struct tags and in the order of
the fields, read back as a claim set. The object has a member for each of the six names:
a number for a `float64`, a string for a `string`, `null` (a member holding the nil
interface) for a nil slice and an array for an allocated one. -/
def Data.toJSON (d : Data) : Except GoError MapClaims := do
  let exp ← marshalFloat64 d.Exp
  let iat ← marshalFloat64 d.Iat
  pure
    [("exp", exp),
     ("iat", iat),
     ("identityProvider", GoValue.string d.IdentityProvider),
     ("userDetails", GoValue.string d.UserDetails),
     ("userId", GoValue.string d.UserID),
     ("userRoles",
        match d.UserRoles with
        | GoSlice.nil => GoValue.nil
        | GoSlice.mk xs => GoValue.slice (xs.map GoValue.string))]

/-- The six claims that `mapClaims` reads, in the order it reads them, each with the type
it asserts. -/
def claimFields : List (String × GoType) :=
  [("exp", GoType.float64), ("iat", GoType.float64), ("identityProvider", GoType.string),
   ("userId", GoType.string), ("userDetails", GoType.string),
   ("userRoles", GoType.sliceInterface)]

/-- The claim `ft.1` of `values` is present and has the dynamic type `ft.2`. -/
def wellTyped (values : MapClaims) (ft : String × GoType) : Prop :=
  (values.index ft.1).dynType = some ft.2

/-- The computation does not return a result: it aborts with a run-time panic. -/
def aborts {ε α : Type} (o : Except ε α) : Prop :=
  ∃ e, o = Except.error e

/-! ## types.go -/

/-- The type `SponsorshipLevel`, an `int`. -/
abbrev SponsorshipLevel := Int

def SponsorshipLevelNone : SponsorshipLevel := 0
def SponsorshipLevelDiamond : SponsorshipLevel := 1
def SponsorshipLevelPlatinum : SponsorshipLevel := 2
def SponsorshipLevelGold : SponsorshipLevel := 3
def SponsorshipLevelSilver : SponsorshipLevel := 4
def SponsorshipLevelBronze : SponsorshipLevel := 5
def SponsorshipLevelOther : SponsorshipLevel := 6

/-- The bytes of a string literal: its UTF-8 encoding. -/
def utf8 (s : String) : List Byte :=
  s.toUTF8.data.toList.map (fun b => b.val)

/-- The method `driver.String.ConvertValue` of `database/sql/driver`: a `string` or a
`[]byte` is returned as it is, anything else is formatted with `fmt.Sprintf("%v", v)`,
here `sprint v`; the error is always nil. -/
def ConvertValue (sprint : GoValue → String) (v : GoValue) : Except GoError GoValue :=
  match v with
  | .string _ => .ok v
  | .bytes _ => .ok v
  | _ => .ok (GoValue.string (sprint v))

/-- The `switch sv` of `Scan`, on the bytes of `sv := string(v)`. -/
def scanLevel (sv : List Byte) : SponsorshipLevel :=
  if sv = utf8 "none" then SponsorshipLevelNone
  else if sv = utf8 "diamond" then SponsorshipLevelDiamond
  else if sv = utf8 "platinum" then SponsorshipLevelPlatinum
  else if sv = utf8 "gold" then SponsorshipLevelGold
  else if sv = utf8 "silver" then SponsorshipLevelSilver
  else if sv = utf8 "bronze" then SponsorshipLevelBronze
  else SponsorshipLevelNone

/-- The method `(*SponsorshipLevel).Scan`, from the receiver value `s`: the value of the
receiver after the call, and the error returned. -/
def Scan (sprint : GoValue → String) (s : SponsorshipLevel) (src : GoValue) :
    SponsorshipLevel × Option GoError :=
  match src with
  | .nil => (SponsorshipLevelNone, none)
  | _ =>
    match ConvertValue sprint src with
    | .ok (.bytes v) => (scanLevel v, none)
    | _ => (s, some ⟨"failed to scan SponsorshipLevel"⟩)

/-- The panic of an index expression out of range. -/
structure BoundsError where
  index : Int
  length : Nat
  deriving DecidableEq, Repr

/-- The table that `String` indexes. -/
def sponsorshipLevelNames : List String :=
  ["none", "diamond", "platinum", "gold", "silver", "bronze", "other"]

/-- The method `SponsorshipLevel.String`: the entry `s` of the table, or the panic of an
index out of range. -/
def SponsorshipLevel.String (s : SponsorshipLevel) : Except BoundsError String :=
  if s < 0 then .error ⟨s, sponsorshipLevelNames.length⟩
  else
    match sponsorshipLevelNames.get? s.toNat with
    | some name => .ok name
    | none => .error ⟨s, sponsorshipLevelNames.length⟩

/-- The method `SponsorshipLevel.Value`: the driver value and the error returned. -/
def SponsorshipLevel.Value (s : SponsorshipLevel) :
    Except BoundsError (GoValue × Option GoError) := do
  let name ← SponsorshipLevel.String s
  pure (GoValue.string name, none)

/-! ## Inputs used in the examples -/

/-- An `oidc` in which the provider cannot be created. -/
def oidcNoProvider : Oidc Unit Unit where
  NewProvider := fun _ _ => .error ⟨"provider unreachable"⟩
  Verify := fun _ _ _ _ => .error ⟨"unused"⟩

/-- An `oidc` in which the provider is created and every token is rejected. -/
def oidcReject : Oidc Unit Unit where
  NewProvider := fun _ _ => .ok ()
  Verify := fun _ _ _ _ => .error ⟨"oidc: token is expired"⟩

/-- An `oidc` in which the provider is created and every token is accepted as `idt`. -/
def oidcAccept (idt : IDToken) : Oidc Unit Unit where
  NewProvider := fun _ _ => .ok ()
  Verify := fun _ _ _ _ => .ok idt

/-- The claim set of the concrete scenario of the specification; `exp` is 9999999999 and
`iat` is 1000000000, as `float64` bit patterns. -/
def scenarioClaims : MapClaims :=
  [("sub", GoValue.string "u1"),
   ("exp", GoValue.float64 ⟨0x4202a05f1ff80000⟩),
   ("iat", GoValue.float64 ⟨0x41cdcd6500000000⟩),
   ("identityProvider", GoValue.string "okta"),
   ("userId", GoValue.string "u1"),
   ("userDetails", GoValue.string "Jane"),
   ("userRoles", GoValue.slice [GoValue.string "admin", GoValue.string "speaker"])]

/-- The scenario claim set with another value `roles` under `userRoles`. -/
def claimsWithRoles (roles : GoValue) : MapClaims :=
  [("exp", GoValue.float64 ⟨0x4202a05f1ff80000⟩),
   ("iat", GoValue.float64 ⟨0x41cdcd6500000000⟩),
   ("identityProvider", GoValue.string "okta"),
   ("userId", GoValue.string "u1"),
   ("userDetails", GoValue.string "Jane"),
   ("userRoles", roles)]

/-- The scenario claim set with another `float64` under `exp`. -/
def claimsWithExp (exp : Float64) : MapClaims :=
  [("exp", GoValue.float64 exp),
   ("iat", GoValue.float64 ⟨0x41cdcd6500000000⟩),
   ("identityProvider", GoValue.string "okta"),
   ("userId", GoValue.string "u1"),
   ("userDetails", GoValue.string "Jane"),
   ("userRoles", GoValue.slice [GoValue.string "admin", GoValue.string "speaker"])]

/-- The scenario claim set without the key `userRoles`. -/
def claimsNoRoles : MapClaims :=
  [("exp", GoValue.float64 ⟨0x4202a05f1ff80000⟩),
   ("iat", GoValue.float64 ⟨0x41cdcd6500000000⟩),
   ("identityProvider", GoValue.string "okta"),
   ("userId", GoValue.string "u1"),
   ("userDetails", GoValue.string "Jane")]

/-! ## mapClaims: the loop over the roles -/

theorem mapClaimsRoles_nil (d : Data) : mapClaimsRoles d [] = .ok d := rfl

theorem mapClaimsRoles_cons_string (d : Data) (r : String) (rest : List GoValue) :
    mapClaimsRoles d (GoValue.string r :: rest) =
      mapClaimsRoles { d with UserRoles := d.UserRoles.append r } rest := rfl

theorem mapClaimsRoles_cons_bad (d : Data) (bad : GoValue) (rest : List GoValue)
    (hbad : ∀ s, bad ≠ GoValue.string s) :
    mapClaimsRoles d (bad :: rest) = .error ⟨bad.dynType, GoType.string⟩ := by
  cases bad with
  | string s => exact absurd rfl (hbad s)
  | _ => rfl

/-- The loop over a list of strings succeeds: it leaves `UserRoles` alone when the list is
empty, and otherwise makes it an allocated slice holding the old elements and then the
strings of the list, in order. -/
theorem mapClaimsRoles_strings (roles : List String) (d : Data) :
    mapClaimsRoles d (roles.map GoValue.string) =
      .ok { d with
        UserRoles := if roles = [] then d.UserRoles
                     else GoSlice.mk (d.UserRoles.toList ++ roles) } := by
  induction roles generalizing d with
  | nil => rfl
  | cons r rs ih =>
    rw [List.map_cons, mapClaimsRoles_cons_string, ih]
    by_cases hrs : rs = []
    · simp [hrs, GoSlice.append]
    · simp [hrs, GoSlice.append, GoSlice.toList]

/-- The loop aborts at the first element that is not a string. -/
theorem mapClaimsRoles_first_bad (pre : List String) (bad : GoValue) (post : List GoValue)
    (d : Data) (hbad : ∀ s, bad ≠ GoValue.string s) :
    mapClaimsRoles d (pre.map GoValue.string ++ bad :: post) =
      .error ⟨bad.dynType, GoType.string⟩ := by
  induction pre generalizing d with
  | nil => exact mapClaimsRoles_cons_bad d bad post hbad
  | cons r rs ih => rw [List.map_cons, List.cons_append, mapClaimsRoles_cons_string, ih]

/-- A list of interface values is a list of strings, or it has a first element that is
not a string. -/
theorem roles_strings_or_first_bad (xs : List GoValue) :
    (∃ roles : List String, xs = roles.map GoValue.string) ∨
    (∃ (pre : List String) (bad : GoValue) (post : List GoValue),
      xs = pre.map GoValue.string ++ bad :: post ∧ ∀ s, bad ≠ GoValue.string s) := by
  induction xs with
  | nil => exact Or.inl ⟨[], rfl⟩
  | cons x rest ih =>
    by_cases hx : ∃ s, x = GoValue.string s
    · obtain ⟨s, rfl⟩ := hx
      rcases ih with ⟨roles, rfl⟩ | ⟨pre, bad, post, rfl, hbad⟩
      · exact Or.inl ⟨s :: roles, rfl⟩
      · exact Or.inr ⟨s :: pre, bad, post, rfl, hbad⟩
    · exact Or.inr ⟨[], x, rest, rfl, fun s h => hx ⟨s, h⟩⟩

/-! ## mapClaims: the assertions on the scalar claims -/

theorem dynType_float64_iff (v : GoValue) :
    v.dynType = some GoType.float64 ↔ ∃ x, v = GoValue.float64 x := by
  cases v <;> simp [GoValue.dynType]

theorem dynType_string_iff (v : GoValue) :
    v.dynType = some GoType.string ↔ ∃ s, v = GoValue.string s := by
  cases v <;> simp [GoValue.dynType]

theorem dynType_slice_iff (v : GoValue) :
    v.dynType = some GoType.sliceInterface ↔ ∃ xs, v = GoValue.slice xs := by
  cases v <;> simp [GoValue.dynType]

theorem assertFloat64_bad (v : GoValue) (h : v.dynType ≠ some GoType.float64) :
    assertFloat64 v = .error ⟨v.dynType, GoType.float64⟩ := by
  cases v <;> first | rfl | exact absurd rfl h

theorem assertString_bad (v : GoValue) (h : v.dynType ≠ some GoType.string) :
    assertString v = .error ⟨v.dynType, GoType.string⟩ := by
  cases v <;> first | rfl | exact absurd rfl h

theorem assertSlice_bad (v : GoValue) (h : v.dynType ≠ some GoType.sliceInterface) :
    assertSlice v = .error ⟨v.dynType, GoType.sliceInterface⟩ := by
  cases v <;> first | rfl | exact absurd rfl h

/-- On a claim set whose five scalar claims are well-typed and whose `userRoles` is a
list, `mapClaims` is the loop over that list from the `Data` holding the five scalars. -/
theorem mapClaims_scalars (values : MapClaims) (exp iat : Float64)
    (idp userId userDetails : String) (xs : List GoValue)
    (hexp : values.index "exp" = GoValue.float64 exp)
    (hiat : values.index "iat" = GoValue.float64 iat)
    (hidp : values.index "identityProvider" = GoValue.string idp)
    (huid : values.index "userId" = GoValue.string userId)
    (hud : values.index "userDetails" = GoValue.string userDetails)
    (hroles : values.index "userRoles" = GoValue.slice xs) :
    mapClaims values =
      mapClaimsRoles ⟨exp, iat, idp, userDetails, userId, GoSlice.nil⟩ xs := by
  simp only [mapClaims, hexp, hiat, hidp, huid, hud, hroles]
  rfl

/-- The result of `mapClaims` depends only on what the map holds under the six keys. -/
theorem mapClaims_congr (values other : MapClaims)
    (h : ∀ ft ∈ claimFields, other.index ft.1 = values.index ft.1) :
    mapClaims other = mapClaims values := by
  have h1 := h ("exp", GoType.float64) (by simp [claimFields])
  have h2 := h ("iat", GoType.float64) (by simp [claimFields])
  have h3 := h ("identityProvider", GoType.string) (by simp [claimFields])
  have h4 := h ("userId", GoType.string) (by simp [claimFields])
  have h5 := h ("userDetails", GoType.string) (by simp [claimFields])
  have h6 := h ("userRoles", GoType.sliceInterface) (by simp [claimFields])
  simp only at h1 h2 h3 h4 h5 h6
  simp only [mapClaims, h1, h2, h3, h4, h5, h6]

/-- The exact result of `mapClaims` on a well-formed claim set. -/
theorem mapClaims_wellformed_eq (values : MapClaims) (exp iat : Float64)
    (idp userId userDetails : String) (roles : List String)
    (hexp : values.index "exp" = GoValue.float64 exp)
    (hiat : values.index "iat" = GoValue.float64 iat)
    (hidp : values.index "identityProvider" = GoValue.string idp)
    (huid : values.index "userId" = GoValue.string userId)
    (hud : values.index "userDetails" = GoValue.string userDetails)
    (hroles : values.index "userRoles" = GoValue.slice (roles.map GoValue.string)) :
    mapClaims values =
      .ok ⟨exp, iat, idp, userDetails, userId,
        if roles = [] then GoSlice.nil else GoSlice.mk roles⟩ := by
  rw [mapClaims_scalars values exp iat idp userId userDetails _ hexp hiat hidp huid hud hroles,
    mapClaimsRoles_strings]
  by_cases hr : roles = [] <;> simp [hr, GoSlice.toList]

/-- When one of the six claims is absent or has another type than the one asserted,
`mapClaims` aborts with the panic of the first such claim, in the order it reads them. -/
theorem mapClaims_first_offending (values : MapClaims)
    (h : ∃ ft ∈ claimFields, ¬ wellTyped values ft) :
    ∃ pre ft post, claimFields = pre ++ ft :: post ∧ (∀ x ∈ pre, wellTyped values x) ∧
      ¬ wellTyped values ft ∧
      mapClaims values = .error ⟨(values.index ft.1).dynType, ft.2⟩ := by
  by_cases h1 : wellTyped values ("exp", GoType.float64)
  swap
  · refine ⟨[], _, _, rfl, by simp, h1, ?_⟩
    simp only [wellTyped] at h1
    simp only [mapClaims, assertFloat64_bad _ h1]
    rfl
  by_cases h2 : wellTyped values ("iat", GoType.float64)
  swap
  · refine ⟨[_], _, _, rfl, by simpa using h1, h2, ?_⟩
    obtain ⟨x1, e1⟩ := (dynType_float64_iff _).1 h1
    simp only [wellTyped] at h2 e1
    simp only [mapClaims, e1, assertFloat64_bad _ h2]
    rfl
  by_cases h3 : wellTyped values ("identityProvider", GoType.string)
  swap
  · refine ⟨[_, _], _, _, rfl, by simpa using ⟨h1, h2⟩, h3, ?_⟩
    obtain ⟨x1, e1⟩ := (dynType_float64_iff _).1 h1
    obtain ⟨x2, e2⟩ := (dynType_float64_iff _).1 h2
    simp only [wellTyped] at h3 e1 e2
    simp only [mapClaims, e1, e2, assertString_bad _ h3]
    rfl
  by_cases h4 : wellTyped values ("userId", GoType.string)
  swap
  · refine ⟨[_, _, _], _, _, rfl, by simpa using ⟨h1, h2, h3⟩, h4, ?_⟩
    obtain ⟨x1, e1⟩ := (dynType_float64_iff _).1 h1
    obtain ⟨x2, e2⟩ := (dynType_float64_iff _).1 h2
    obtain ⟨x3, e3⟩ := (dynType_string_iff _).1 h3
    simp only [wellTyped] at h4 e1 e2 e3
    simp only [mapClaims, e1, e2, e3, assertString_bad _ h4]
    rfl
  by_cases h5 : wellTyped values ("userDetails", GoType.string)
  swap
  · refine ⟨[_, _, _, _], _, _, rfl, by simpa using ⟨h1, h2, h3, h4⟩, h5, ?_⟩
    obtain ⟨x1, e1⟩ := (dynType_float64_iff _).1 h1
    obtain ⟨x2, e2⟩ := (dynType_float64_iff _).1 h2
    obtain ⟨x3, e3⟩ := (dynType_string_iff _).1 h3
    obtain ⟨x4, e4⟩ := (dynType_string_iff _).1 h4
    simp only [wellTyped] at h5 e1 e2 e3 e4
    simp only [mapClaims, e1, e2, e3, e4, assertString_bad _ h5]
    rfl
  by_cases h6 : wellTyped values ("userRoles", GoType.sliceInterface)
  swap
  · refine ⟨[_, _, _, _, _], _, [], rfl, by simpa using ⟨h1, h2, h3, h4, h5⟩, h6, ?_⟩
    obtain ⟨x1, e1⟩ := (dynType_float64_iff _).1 h1
    obtain ⟨x2, e2⟩ := (dynType_float64_iff _).1 h2
    obtain ⟨x3, e3⟩ := (dynType_string_iff _).1 h3
    obtain ⟨x4, e4⟩ := (dynType_string_iff _).1 h4
    obtain ⟨x5, e5⟩ := (dynType_string_iff _).1 h5
    simp only [wellTyped] at h6 e1 e2 e3 e4 e5
    simp only [mapClaims, e1, e2, e3, e4, e5, assertSlice_bad _ h6]
    rfl
  exfalso
  obtain ⟨ft, hmem, hbad⟩ := h
  simp only [claimFields, List.mem_cons, List.mem_singleton, List.not_mem_nil, or_false] at hmem
  rcases hmem with rfl | rfl | rfl | rfl | rfl | rfl
  · exact hbad h1
  · exact hbad h2
  · exact hbad h3
  · exact hbad h4
  · exact hbad h5
  · exact hbad h6

/-- When `mapClaims` returns, the claim set was well-formed, and the `Data` returned is
the one of `mapClaims_wellformed_eq`. -/
theorem mapClaims_ok_inv (values : MapClaims) (d : Data) (h : mapClaims values = .ok d) :
    ∃ (exp iat : Float64) (idp userId userDetails : String) (roles : List String),
      values.index "exp" = GoValue.float64 exp ∧
      values.index "iat" = GoValue.float64 iat ∧
      values.index "identityProvider" = GoValue.string idp ∧
      values.index "userId" = GoValue.string userId ∧
      values.index "userDetails" = GoValue.string userDetails ∧
      values.index "userRoles" = GoValue.slice (roles.map GoValue.string) ∧
      d = ⟨exp, iat, idp, userDetails, userId,
        if roles = [] then GoSlice.nil else GoSlice.mk roles⟩ := by
  have hall : ∀ ft ∈ claimFields, wellTyped values ft := by
    intro ft hmem
    by_contra hbad
    obtain ⟨_, _, _, _, _, _, herr⟩ := mapClaims_first_offending values ⟨ft, hmem, hbad⟩
    rw [herr] at h
    cases h
  obtain ⟨exp, hexp⟩ := (dynType_float64_iff _).1
    (hall ("exp", GoType.float64) (by simp [claimFields]))
  obtain ⟨iat, hiat⟩ := (dynType_float64_iff _).1
    (hall ("iat", GoType.float64) (by simp [claimFields]))
  obtain ⟨idp, hidp⟩ := (dynType_string_iff _).1
    (hall ("identityProvider", GoType.string) (by simp [claimFields]))
  obtain ⟨userId, huid⟩ := (dynType_string_iff _).1
    (hall ("userId", GoType.string) (by simp [claimFields]))
  obtain ⟨userDetails, hud⟩ := (dynType_string_iff _).1
    (hall ("userDetails", GoType.string) (by simp [claimFields]))
  obtain ⟨xs, hxs⟩ := (dynType_slice_iff _).1
    (hall ("userRoles", GoType.sliceInterface) (by simp [claimFields]))
  simp only at hexp hiat hidp huid hud hxs
  rcases roles_strings_or_first_bad xs with ⟨roles, rfl⟩ | ⟨pre, bad, post, rfl, hbad⟩
  · refine ⟨exp, iat, idp, userId, userDetails, roles, hexp, hiat, hidp, huid, hud, hxs, ?_⟩
    rw [mapClaims_wellformed_eq values exp iat idp userId userDetails roles
      hexp hiat hidp huid hud hxs] at h
    cases h
    rfl
  · rw [mapClaims_scalars values exp iat idp userId userDetails _ hexp hiat hidp huid hud hxs,
      mapClaimsRoles_first_bad pre bad post _ hbad] at h
    cases h

/-! ## VerifyToken -/

/-- C1. If provider creation fails with `e`, or it succeeds and verification fails with
`e`, then `VerifyToken` returns the empty UID, a nil `*Data` and the error `e` itself; and
when provider creation failed, no call to `Verify` was made. -/
theorem VerifyToken_failure_shape {Ctx Provider : Type} (oidc : Oidc Ctx Provider)
    (ctx : Ctx) (token : String) (e : GoError)
    (h : oidc.NewProvider ctx issuerURL = .error e ∨
      ∃ p, oidc.NewProvider ctx issuerURL = .ok p ∧
        oidc.Verify p clientID ctx token = .error e) :
    (VerifyToken oidc ctx token).1 = ⟨"", none, some e⟩ ∧
    (oidc.NewProvider ctx issuerURL = .error e →
      ∀ c ∈ (VerifyToken oidc ctx token).2, ∀ cid tok, c ≠ Call.Verify cid tok) := by
  rcases h with h | ⟨p, hp, hv⟩
  · refine ⟨by simp [VerifyToken, h], fun _ => ?_⟩
    simp [VerifyToken, h]
  · refine ⟨by simp [VerifyToken, hp, hv], fun hne => ?_⟩
    rw [hp] at hne
    cases hne

/-- C1, at two inputs: an unreachable provider, and a provider that rejects the token. -/
theorem VerifyToken_failure_shape_witness :
    ((VerifyToken oidcNoProvider () "tok").1 = ⟨"", none, some ⟨"provider unreachable"⟩⟩ ∧
      (oidcNoProvider.NewProvider () issuerURL = .error ⟨"provider unreachable"⟩ →
        ∀ c ∈ (VerifyToken oidcNoProvider () "tok").2, ∀ cid tok, c ≠ Call.Verify cid tok)) ∧
    (VerifyToken oidcReject () "tok").1 = ⟨"", none, some ⟨"oidc: token is expired"⟩⟩ :=
  ⟨VerifyToken_failure_shape oidcNoProvider () "tok" ⟨"provider unreachable"⟩ (Or.inl rfl),
   (VerifyToken_failure_shape oidcReject () "tok" ⟨"oidc: token is expired"⟩
      (Or.inr ⟨(), rfl, rfl⟩)).1⟩

/-- C2, at the scenario token of the specification: the verifier accepts a token with the
claims `scenarioClaims` and subject `u1`. `VerifyToken` returns UID `u1` and a nil error,
but the `Data` it returns is the zero value: its `UserRoles` is the nil slice, not
`["admin", "speaker"]`, and its other fields are zero too, while `mapClaims` on the same
claims, which `VerifyToken` never calls, yields the fields the claim asks for. -/
theorem VerifyToken_scenario_zero_data :
    (VerifyToken (oidcAccept ⟨"u1", scenarioClaims⟩) () "tok").1 =
      ⟨"u1", some ⟨⟨0⟩, ⟨0⟩, "", "", "", GoSlice.nil⟩, none⟩ ∧
    (VerifyToken (oidcAccept ⟨"u1", scenarioClaims⟩) () "tok").1.data.map
      (fun d => d.UserRoles.toList) ≠ some ["admin", "speaker"] ∧
    mapClaims scenarioClaims =
      .ok ⟨⟨0x4202a05f1ff80000⟩, ⟨0x41cdcd6500000000⟩, "okta", "Jane", "u1",
        GoSlice.mk ["admin", "speaker"]⟩ :=
  ⟨rfl, by decide, rfl⟩

/-- C3 fails as stated: when the verifier accepts a token whose subject is the empty
string, `VerifyToken` returns a nil error with an empty UID, and an empty UID with a
non-nil `*Data`. -/
theorem VerifyToken_empty_subject_counterexample :
    (VerifyToken (oidcAccept ⟨"", []⟩) () "tok").1.err = none ∧
    (VerifyToken (oidcAccept ⟨"", []⟩) () "tok").1.uid = "" ∧
    (VerifyToken (oidcAccept ⟨"", []⟩) () "tok").1.data ≠ none ∧
    ¬ (((VerifyToken (oidcAccept ⟨"", []⟩) () "tok").1.err = none →
          (VerifyToken (oidcAccept ⟨"", []⟩) () "tok").1.uid ≠ "") ∧
        ((VerifyToken (oidcAccept ⟨"", []⟩) () "tok").1.uid = "" →
          (VerifyToken (oidcAccept ⟨"", []⟩) () "tok").1.data = none)) := by
  refine ⟨rfl, rfl, by decide, fun h => ?_⟩
  exact h.1 rfl rfl

/-- C3, amended. For every outcome of the provider and verifier steps: (i) whenever
`VerifyToken` returns a nil error, the verifier accepted a token, the UID is that token's
subject (so it is non-empty when the subject is) and the `*Data` is non-nil; (ii) whenever
`VerifyToken` returns a non-nil error, the UID is empty and the `*Data` is nil. -/
theorem VerifyToken_pairing {Ctx Provider : Type} (oidc : Oidc Ctx Provider)
    (ctx : Ctx) (token : String) :
    ((VerifyToken oidc ctx token).1.err = none →
      ∃ p idt, oidc.NewProvider ctx issuerURL = .ok p ∧
        oidc.Verify p clientID ctx token = .ok idt ∧
        (VerifyToken oidc ctx token).1.uid = idt.Subject ∧
        (idt.Subject ≠ "" → (VerifyToken oidc ctx token).1.uid ≠ "") ∧
        (VerifyToken oidc ctx token).1.data ≠ none) ∧
    ((VerifyToken oidc ctx token).1.err ≠ none →
      (VerifyToken oidc ctx token).1.uid = "" ∧
        (VerifyToken oidc ctx token).1.data = none) := by
  unfold VerifyToken
  cases hp : oidc.NewProvider ctx issuerURL with
  | error e => simp
  | ok p =>
    cases hv : oidc.Verify p clientID ctx token with
    | error e => simp [hv]
    | ok idt => simp [hv]

/-- C3, amended, at an accepted token with subject `u1` and at a rejected token. -/
theorem VerifyToken_pairing_witness :
    (∃ p idt, (oidcAccept ⟨"u1", scenarioClaims⟩).NewProvider () issuerURL = .ok p ∧
        (oidcAccept ⟨"u1", scenarioClaims⟩).Verify p clientID () "tok" = .ok idt ∧
        (VerifyToken (oidcAccept ⟨"u1", scenarioClaims⟩) () "tok").1.uid = idt.Subject ∧
        (idt.Subject ≠ "" →
          (VerifyToken (oidcAccept ⟨"u1", scenarioClaims⟩) () "tok").1.uid ≠ "") ∧
        (VerifyToken (oidcAccept ⟨"u1", scenarioClaims⟩) () "tok").1.data ≠ none) ∧
    ((VerifyToken oidcReject () "tok").1.uid = "" ∧
        (VerifyToken oidcReject () "tok").1.data = none) :=
  ⟨(VerifyToken_pairing (oidcAccept ⟨"u1", scenarioClaims⟩) () "tok").1 rfl,
   (VerifyToken_pairing oidcReject () "tok").2 (by decide)⟩

/-! ## mapClaims -/

/-- C4. On a claim set in which `exp` and `iat` are numbers, `identityProvider`, `userId`
and `userDetails` are strings and `userRoles` is a list of strings, `mapClaims` returns a
`Data` holding the five scalars and, in `UserRoles`, the strings of the list in the same
order and number; and a map that holds the same values under the six keys gives the same
result, whatever its other keys. -/
theorem mapClaims_wellformed (values : MapClaims) (exp iat : Float64)
    (idp userId userDetails : String) (roles : List String)
    (hexp : values.index "exp" = GoValue.float64 exp)
    (hiat : values.index "iat" = GoValue.float64 iat)
    (hidp : values.index "identityProvider" = GoValue.string idp)
    (huid : values.index "userId" = GoValue.string userId)
    (hud : values.index "userDetails" = GoValue.string userDetails)
    (hroles : values.index "userRoles" = GoValue.slice (roles.map GoValue.string)) :
    (∃ d, mapClaims values = .ok d ∧ d.Exp = exp ∧ d.Iat = iat ∧
      d.IdentityProvider = idp ∧ d.UserID = userId ∧ d.UserDetails = userDetails ∧
      d.UserRoles.toList = roles ∧ d.UserRoles.toList.length = roles.length) ∧
    (∀ other : MapClaims, (∀ ft ∈ claimFields, other.index ft.1 = values.index ft.1) →
      mapClaims other = mapClaims values) := by
  refine ⟨⟨_, mapClaims_wellformed_eq values exp iat idp userId userDetails roles
    hexp hiat hidp huid hud hroles, rfl, rfl, rfl, rfl, rfl, ?_, ?_⟩,
    fun other h => mapClaims_congr values other h⟩
  · by_cases hr : roles = [] <;> simp [hr, GoSlice.toList]
  · by_cases hr : roles = [] <;> simp [hr, GoSlice.toList]

/-- C4, at the scenario claim set of the specification, which has the extra key `sub`. -/
theorem mapClaims_wellformed_witness :
    (∃ d, mapClaims scenarioClaims = .ok d ∧ d.Exp = ⟨0x4202a05f1ff80000⟩ ∧
      d.Iat = ⟨0x41cdcd6500000000⟩ ∧
      d.IdentityProvider = "okta" ∧ d.UserID = "u1" ∧ d.UserDetails = "Jane" ∧
      d.UserRoles.toList = ["admin", "speaker"] ∧
      d.UserRoles.toList.length = ["admin", "speaker"].length) ∧
    (∀ other : MapClaims,
      (∀ ft ∈ claimFields, other.index ft.1 = scenarioClaims.index ft.1) →
      mapClaims other = mapClaims scenarioClaims) :=
  mapClaims_wellformed scenarioClaims ⟨0x4202a05f1ff80000⟩ ⟨0x41cdcd6500000000⟩
    "okta" "u1" "Jane" ["admin", "speaker"] rfl rfl rfl rfl rfl rfl

/-- C5 fails as stated: the claim set `claimsNoRoles` has the five scalar claims,
well-typed, and no key `userRoles`; `mapClaims` does not return a `Data` on it, it aborts
with the panic of `values["userRoles"].([]interface{})` on a nil interface. -/
theorem mapClaims_absent_roles_counterexample :
    claimsNoRoles.lookup "userRoles" = none ∧
    (∀ ft ∈ claimFields.take 5, wellTyped claimsNoRoles ft) ∧
    mapClaims claimsNoRoles = .error ⟨none, GoType.sliceInterface⟩ ∧
    aborts (mapClaims claimsNoRoles) ∧
    ¬ ∃ d, mapClaims claimsNoRoles = .ok d := by
  refine ⟨rfl, ?_, rfl, ⟨_, rfl⟩, fun ⟨d, hd⟩ => ?_⟩
  · intro ft hmem
    simp only [claimFields, List.take, List.mem_cons, List.mem_singleton, List.not_mem_nil,
      or_false] at hmem
    rcases hmem with rfl | rfl | rfl | rfl | rfl <;> rfl
  · cases hd

/-- C5, amended. On a claim set with well-typed `exp`, `iat`, `identityProvider`,
`userId` and `userDetails`: when there is no key `userRoles`, `mapClaims` returns no
`Data` and aborts with the panic of the type assertion on a nil interface; when
`userRoles` is present as the empty list, `mapClaims` returns a `Data` whose `UserRoles`
is empty (the nil slice) and whose other five fields equal the claims. -/
theorem mapClaims_absent_or_empty_roles (values : MapClaims) (exp iat : Float64)
    (idp userId userDetails : String)
    (hexp : values.index "exp" = GoValue.float64 exp)
    (hiat : values.index "iat" = GoValue.float64 iat)
    (hidp : values.index "identityProvider" = GoValue.string idp)
    (huid : values.index "userId" = GoValue.string userId)
    (hud : values.index "userDetails" = GoValue.string userDetails) :
    (values.lookup "userRoles" = none →
      mapClaims values = .error ⟨none, GoType.sliceInterface⟩ ∧ aborts (mapClaims values)) ∧
    (values.index "userRoles" = GoValue.slice [] →
      mapClaims values = .ok ⟨exp, iat, idp, userDetails, userId, GoSlice.nil⟩) := by
  constructor
  · intro hnone
    have hnil : values.index "userRoles" = GoValue.nil := by
      simp [MapClaims.index, hnone]
    have herr : mapClaims values = .error ⟨none, GoType.sliceInterface⟩ := by
      simp only [mapClaims, hexp, hiat, hidp, huid, hud, hnil]
      rfl
    exact ⟨herr, _, herr⟩
  · intro hempty
    exact mapClaims_wellformed_eq values exp iat idp userId userDetails [] hexp hiat hidp
      huid hud hempty

/-- C5, amended, at the scenario claims without `userRoles` and with `userRoles: []`. -/
theorem mapClaims_absent_or_empty_roles_witness :
    (mapClaims claimsNoRoles = .error ⟨none, GoType.sliceInterface⟩ ∧
      aborts (mapClaims claimsNoRoles)) ∧
    mapClaims (claimsWithRoles (GoValue.slice [])) =
      .ok ⟨⟨0x4202a05f1ff80000⟩, ⟨0x41cdcd6500000000⟩, "okta", "Jane", "u1", GoSlice.nil⟩ :=
  ⟨(mapClaims_absent_or_empty_roles claimsNoRoles ⟨0x4202a05f1ff80000⟩
      ⟨0x41cdcd6500000000⟩ "okta" "u1" "Jane" rfl rfl rfl rfl rfl).1 rfl,
   (mapClaims_absent_or_empty_roles (claimsWithRoles (GoValue.slice []))
      ⟨0x4202a05f1ff80000⟩ ⟨0x41cdcd6500000000⟩ "okta" "u1" "Jane" rfl rfl rfl rfl rfl).2 rfl⟩

/-- C6 fails as stated: on the scenario claims with `userRoles: ["admin", 7]`, whose
second role is a number, `mapClaims` returns nothing, neither a `Data` nor an error: it
aborts with the panic of `role.(string)` on a `float64`. -/
theorem mapClaims_mistyped_role_counterexample :
    mapClaims (claimsWithRoles (GoValue.slice [GoValue.string "admin", GoValue.float64 ⟨7⟩])) =
      .error ⟨some GoType.float64, GoType.string⟩ ∧
    aborts (mapClaims
      (claimsWithRoles (GoValue.slice [GoValue.string "admin", GoValue.float64 ⟨7⟩]))) :=
  ⟨rfl, _, rfl⟩

/-- C6, amended. On a claim set whose five scalar claims are well-typed and whose
`userRoles` is a list with at least one element that is not a string, `mapClaims` produces
no `Data` and aborts with the panic of the type assertion `role.(string)` at the first such
element: the panic records the type `string` asserted and the dynamic type of that element,
and not the name `userRoles`. -/
theorem mapClaims_mistyped_role (values : MapClaims) (exp iat : Float64)
    (idp userId userDetails : String) (xs : List GoValue)
    (hexp : values.index "exp" = GoValue.float64 exp)
    (hiat : values.index "iat" = GoValue.float64 iat)
    (hidp : values.index "identityProvider" = GoValue.string idp)
    (huid : values.index "userId" = GoValue.string userId)
    (hud : values.index "userDetails" = GoValue.string userDetails)
    (hroles : values.index "userRoles" = GoValue.slice xs)
    (hbad : ∃ x ∈ xs, ∀ s, x ≠ GoValue.string s) :
    (¬ ∃ d, mapClaims values = .ok d) ∧ aborts (mapClaims values) ∧
    ∃ (pre : List String) (bad : GoValue) (post : List GoValue),
      xs = pre.map GoValue.string ++ bad :: post ∧ (∀ s, bad ≠ GoValue.string s) ∧
      mapClaims values = .error ⟨bad.dynType, GoType.string⟩ := by
  rcases roles_strings_or_first_bad xs with ⟨roles, rfl⟩ | ⟨pre, bad, post, rfl, hb⟩
  · obtain ⟨x, hx, hne⟩ := hbad
    obtain ⟨s, _, rfl⟩ := List.mem_map.1 hx
    exact absurd rfl (hne s)
  · have herr : mapClaims values = .error ⟨bad.dynType, GoType.string⟩ := by
      rw [mapClaims_scalars values exp iat idp userId userDetails _ hexp hiat hidp huid hud
        hroles, mapClaimsRoles_first_bad pre bad post _ hb]
    refine ⟨fun ⟨d, hd⟩ => ?_, ⟨_, herr⟩, pre, bad, post, rfl, hb, herr⟩
    rw [herr] at hd
    cases hd

/-- C6, amended, at the scenario claims with `userRoles: ["admin", 7, "speaker"]`. -/
theorem mapClaims_mistyped_role_witness :
    (¬ ∃ d, mapClaims (claimsWithRoles (GoValue.slice
        [GoValue.string "admin", GoValue.float64 ⟨7⟩, GoValue.string "speaker"])) = .ok d) ∧
    aborts (mapClaims (claimsWithRoles (GoValue.slice
        [GoValue.string "admin", GoValue.float64 ⟨7⟩, GoValue.string "speaker"]))) :=
  have h := mapClaims_mistyped_role
    (claimsWithRoles (GoValue.slice
      [GoValue.string "admin", GoValue.float64 ⟨7⟩, GoValue.string "speaker"]))
    ⟨0x4202a05f1ff80000⟩ ⟨0x41cdcd6500000000⟩ "okta" "u1" "Jane"
    [GoValue.string "admin", GoValue.float64 ⟨7⟩, GoValue.string "speaker"]
    rfl rfl rfl rfl rfl rfl
    ⟨GoValue.float64 ⟨7⟩, by simp, fun s h => by cases h⟩
  ⟨h.1, h.2.1⟩

/-- C7 fails as stated: on the empty claim set `mapClaims` aborts; and the panic it
aborts with when `exp` is absent is the same value as when `exp` is a number and `iat` is
absent, so the two offending fields cannot be told apart. -/
theorem mapClaims_total_counterexample :
    aborts (mapClaims []) ∧
    mapClaims [] = .error ⟨none, GoType.float64⟩ ∧
    mapClaims [("exp", GoValue.float64 ⟨0⟩)] = .error ⟨none, GoType.float64⟩ ∧
    mapClaims [] = mapClaims [("exp", GoValue.float64 ⟨0⟩)] :=
  ⟨⟨_, rfl⟩, rfl, rfl, rfl⟩

/-- C7, amended. For every claim map, `mapClaims` either returns a `Data` or aborts with
a type-assertion panic; it has no error result. Whenever one of `exp`, `iat`,
`identityProvider`, `userId`, `userDetails` is absent or has the wrong type, or `userRoles`
is absent or not a list, it aborts, with the panic of the first offending field in the
order `exp`, `iat`, `identityProvider`, `userId`, `userDetails`, `userRoles`; the panic
records the dynamic type found and the type asserted, not the name of the field. -/
theorem mapClaims_malformed_aborts (values : MapClaims) :
    ((∃ d, mapClaims values = .ok d) ∨ aborts (mapClaims values)) ∧
    ((∃ ft ∈ claimFields, ¬ wellTyped values ft) →
      aborts (mapClaims values) ∧
      ∃ pre ft post, claimFields = pre ++ ft :: post ∧ (∀ x ∈ pre, wellTyped values x) ∧
        ¬ wellTyped values ft ∧
        mapClaims values = .error ⟨(values.index ft.1).dynType, ft.2⟩) := by
  constructor
  · cases h : mapClaims values with
    | ok d => exact Or.inl ⟨d, rfl⟩
    | error e => exact Or.inr ⟨e, rfl⟩
  · intro h
    obtain ⟨pre, ft, post, hsplit, hpre, hbad, herr⟩ := mapClaims_first_offending values h
    exact ⟨⟨_, herr⟩, pre, ft, post, hsplit, hpre, hbad, herr⟩

/-- C7, amended, at the scenario claims with the string `"soon"` under `exp`. -/
theorem mapClaims_malformed_aborts_witness :
    aborts (mapClaims (("exp", GoValue.string "soon") :: scenarioClaims)) :=
  ((mapClaims_malformed_aborts (("exp", GoValue.string "soon") :: scenarioClaims)).2
    ⟨("exp", GoType.float64), by simp [claimFields], by
      simp [wellTyped, MapClaims.index, List.lookup, GoValue.dynType]⟩).1

/-- C8 fails as stated: on the scenario claims with `userRoles: []`, a well-formed claim
set, `mapClaims` succeeds and the `UserRoles` of the `Data` it returns is the nil slice. -/
theorem mapClaims_empty_roles_nil_counterexample :
    ∃ d, mapClaims (claimsWithRoles (GoValue.slice [])) = .ok d ∧
      d.UserRoles = GoSlice.nil ∧ d.UserRoles.isNil = true :=
  ⟨_, rfl, rfl, rfl⟩

/-- C8, amended. For every claim map on which `mapClaims` succeeds, `userRoles` was a
list of strings, `UserRoles` holds exactly those strings, and `UserRoles` is a non-nil
slice exactly when the list has at least one element: for the empty list it is the nil
slice, of length 0. -/
theorem mapClaims_roles_nil_iff (values : MapClaims) (d : Data)
    (h : mapClaims values = .ok d) :
    ∃ roles : List String,
      values.index "userRoles" = GoValue.slice (roles.map GoValue.string) ∧
      d.UserRoles.toList = roles ∧
      (d.UserRoles.isNil = false ↔ roles ≠ []) ∧
      (roles = [] → d.UserRoles = GoSlice.nil ∧ d.UserRoles.toList.length = 0) := by
  obtain ⟨exp, iat, idp, userId, userDetails, roles, _, _, _, _, _, hroles, rfl⟩ :=
    mapClaims_ok_inv values d h
  refine ⟨roles, hroles, ?_, ?_, ?_⟩
  · by_cases hr : roles = [] <;> simp [hr, GoSlice.toList]
  · by_cases hr : roles = [] <;> simp [hr, GoSlice.isNil]
  · intro hr
    simp [hr, GoSlice.toList]

/-- C8, amended, at the scenario claim set, whose two roles give a non-nil slice. -/
theorem mapClaims_roles_nil_iff_witness :
    ∃ roles : List String,
      scenarioClaims.index "userRoles" = GoValue.slice (roles.map GoValue.string) ∧
      (GoSlice.mk ["admin", "speaker"]).toList = roles ∧
      ((GoSlice.mk ["admin", "speaker"]).isNil = false ↔ roles ≠ []) ∧
      (roles = [] → GoSlice.mk ["admin", "speaker"] = GoSlice.nil ∧
        (GoSlice.mk ["admin", "speaker"]).toList.length = 0) :=
  mapClaims_roles_nil_iff scenarioClaims
    ⟨⟨0x4202a05f1ff80000⟩, ⟨0x41cdcd6500000000⟩, "okta", "Jane", "u1",
      GoSlice.mk ["admin", "speaker"]⟩ rfl

/-- A map that indexes to a value other than the nil interface holds that value. -/
theorem lookup_of_index (values : MapClaims) (k : String) (v : GoValue)
    (h : values.index k = v) (hv : v ≠ GoValue.nil) : values.lookup k = some v := by
  unfold MapClaims.index at h
  cases hl : values.lookup k with
  | none =>
    rw [hl] at h
    exact absurd h.symm hv
  | some w =>
    rw [hl] at h
    exact congrArg some h

theorem marshalFloat64_finite (x : Float64) (h : x.isInfOrNaN = false) :
    marshalFloat64 x = .ok (GoValue.float64 x) := by
  simp [marshalFloat64, h]

theorem marshalFloat64_infOrNaN (x : Float64) (h : x.isInfOrNaN = true) :
    marshalFloat64 x = .error ⟨"json: unsupported value: " ++ x.formatInfOrNaN⟩ := by
  simp [marshalFloat64, h]

/-- When a number of the `Data` is an infinity or a NaN, `json.Marshal` returns an error
and writes nothing. -/
theorem toJSON_infOrNaN (d : Data) (h : d.Exp.isInfOrNaN = true ∨ d.Iat.isInfOrNaN = true) :
    ∃ e, d.toJSON = .error e := by
  unfold Data.toJSON
  cases hexp : d.Exp.isInfOrNaN with
  | true =>
    rw [marshalFloat64_infOrNaN _ hexp]
    exact ⟨_, rfl⟩
  | false =>
    have hiat : d.Iat.isInfOrNaN = true := by
      rcases h with h | h
      · rw [hexp] at h
        cases h
      · exact h
    rw [marshalFloat64_finite _ hexp, marshalFloat64_infOrNaN _ hiat]
    exact ⟨_, rfl⟩

/-- C9 fails as stated: on the scenario claims with `userRoles: []`, a well-formed claim
set, the `Data` that `mapClaims` returns is serialized with the member `userRoles: null`,
while the claim set holds the empty array under that name. And on the scenario claims
with a NaN under `exp`, also numeric, the `Data` that `mapClaims` returns is not
serialized at all: `json.Marshal` returns an error. -/
theorem mapClaims_toJSON_empty_roles_counterexample :
    (∃ d json, mapClaims (claimsWithRoles (GoValue.slice [])) = .ok d ∧
      d.toJSON = .ok json ∧
      json.lookup "userRoles" = some GoValue.nil ∧
      (claimsWithRoles (GoValue.slice [])).lookup "userRoles" = some (GoValue.slice []) ∧
      json.lookup "userRoles" ≠ (claimsWithRoles (GoValue.slice [])).lookup "userRoles") ∧
    (∃ d, mapClaims (claimsWithExp ⟨0x7ff8000000000000⟩) = .ok d ∧
      d.toJSON = .error ⟨"json: unsupported value: NaN"⟩) :=
  ⟨⟨_, _, rfl, rfl, rfl, rfl, fun h => GoValue.noConfusion (Option.some.inj h)⟩,
   ⟨_, rfl, rfl⟩⟩

/-- C9, amended. For every well-formed claim map, `mapClaims` returns a `Data`. When `exp`
and `iat` are finite numbers, as every number of a JSON text is, re-serializing that
`Data` succeeds and writes, under each of `exp`, `iat`, `identityProvider`, `userDetails`
and `userId`, exactly the value the map holds under that name; under `userRoles` it
writes exactly the value the map holds when the list of roles is not empty, and `null`
when it is empty. When `exp` or `iat` is an infinity or a NaN, re-serializing fails with
an error and writes nothing. -/
theorem mapClaims_toJSON_roundtrip (values : MapClaims) (exp iat : Float64)
    (idp userId userDetails : String) (roles : List String)
    (hexp : values.index "exp" = GoValue.float64 exp)
    (hiat : values.index "iat" = GoValue.float64 iat)
    (hidp : values.index "identityProvider" = GoValue.string idp)
    (huid : values.index "userId" = GoValue.string userId)
    (hud : values.index "userDetails" = GoValue.string userDetails)
    (hroles : values.index "userRoles" = GoValue.slice (roles.map GoValue.string)) :
    ∃ d, mapClaims values = .ok d ∧
      (exp.isInfOrNaN = false ∧ iat.isInfOrNaN = false →
        ∃ json, d.toJSON = .ok json ∧
          json.lookup "exp" = values.lookup "exp" ∧
          json.lookup "iat" = values.lookup "iat" ∧
          json.lookup "identityProvider" = values.lookup "identityProvider" ∧
          json.lookup "userDetails" = values.lookup "userDetails" ∧
          json.lookup "userId" = values.lookup "userId" ∧
          (roles ≠ [] → json.lookup "userRoles" = values.lookup "userRoles") ∧
          (roles = [] → json.lookup "userRoles" = some GoValue.nil)) ∧
      (exp.isInfOrNaN = true ∨ iat.isInfOrNaN = true → ∃ e, d.toJSON = .error e) := by
  refine ⟨_, mapClaims_wellformed_eq values exp iat idp userId userDetails roles
    hexp hiat hidp huid hud hroles, ?_, fun h => toJSON_infOrNaN _ h⟩
  rintro ⟨fexp, fiat⟩
  have hjson : ∀ r : GoSlice String,
      Data.toJSON ⟨exp, iat, idp, userDetails, userId, r⟩ =
        .ok [("exp", GoValue.float64 exp), ("iat", GoValue.float64 iat),
          ("identityProvider", GoValue.string idp),
          ("userDetails", GoValue.string userDetails),
          ("userId", GoValue.string userId),
          ("userRoles",
            match r with
            | GoSlice.nil => GoValue.nil
            | GoSlice.mk xs => GoValue.slice (xs.map GoValue.string))] := by
    intro r
    simp only [Data.toJSON, marshalFloat64_finite _ fexp, marshalFloat64_finite _ fiat]
    rfl
  refine ⟨_, hjson _, ?_, ?_, ?_, ?_, ?_, ?_, ?_⟩
  · rw [lookup_of_index values _ _ hexp (fun h => GoValue.noConfusion h)]; rfl
  · rw [lookup_of_index values _ _ hiat (fun h => GoValue.noConfusion h)]; rfl
  · rw [lookup_of_index values _ _ hidp (fun h => GoValue.noConfusion h)]; rfl
  · rw [lookup_of_index values _ _ hud (fun h => GoValue.noConfusion h)]; rfl
  · rw [lookup_of_index values _ _ huid (fun h => GoValue.noConfusion h)]; rfl
  · intro hr
    rw [lookup_of_index values _ _ hroles (fun h => GoValue.noConfusion h)]
    simp only [hr, if_false]
    rfl
  · intro hr
    simp only [hr, if_true]
    rfl

/-- C9, amended, at the scenario claim set, whose numbers are finite, and at the scenario
claims with the infinity `+Inf` under `exp`. -/
theorem mapClaims_toJSON_roundtrip_witness :
    (∃ d, mapClaims scenarioClaims = .ok d ∧
      ∃ json, d.toJSON = .ok json ∧
        json.lookup "exp" = scenarioClaims.lookup "exp" ∧
        json.lookup "iat" = scenarioClaims.lookup "iat" ∧
        json.lookup "identityProvider" = scenarioClaims.lookup "identityProvider" ∧
        json.lookup "userDetails" = scenarioClaims.lookup "userDetails" ∧
        json.lookup "userId" = scenarioClaims.lookup "userId" ∧
        (["admin", "speaker"] ≠ [] →
          json.lookup "userRoles" = scenarioClaims.lookup "userRoles") ∧
        (["admin", "speaker"] = [] → json.lookup "userRoles" = some GoValue.nil)) ∧
    (∃ d, mapClaims (claimsWithExp ⟨0x7ff0000000000000⟩) = .ok d ∧
      ∃ e, d.toJSON = .error e) :=
  have h1 := mapClaims_toJSON_roundtrip scenarioClaims ⟨0x4202a05f1ff80000⟩
    ⟨0x41cdcd6500000000⟩ "okta" "u1" "Jane" ["admin", "speaker"] rfl rfl rfl rfl rfl rfl
  have h2 := mapClaims_toJSON_roundtrip (claimsWithExp ⟨0x7ff0000000000000⟩)
    ⟨0x7ff0000000000000⟩ ⟨0x41cdcd6500000000⟩ "okta" "u1" "Jane" ["admin", "speaker"]
    rfl rfl rfl rfl rfl rfl
  ⟨h1.elim fun d hd => ⟨d, hd.1, hd.2.1 ⟨by decide, by decide⟩⟩,
   h2.elim fun d hd => ⟨d, hd.1, hd.2.2 (Or.inl (by decide))⟩⟩

/-! ## SponsorshipLevel.Scan -/

theorem Scan_nil (sprint : GoValue → String) (s : SponsorshipLevel) :
    Scan sprint s GoValue.nil = (SponsorshipLevelNone, none) := rfl

theorem Scan_bytes (sprint : GoValue → String) (s : SponsorshipLevel) (b : List Byte) :
    Scan sprint s (GoValue.bytes b) = (scanLevel b, none) := rfl

/-- C10. For every prior value `s` of the receiver: `Scan(nil)` sets it to
`SponsorshipLevelNone` and returns nil; `Scan` of the bytes of `none`, `diamond`,
`platinum`, `gold`, `silver`, `bronze` sets it to the level of that name and returns nil;
`Scan` of any other byte slice `b`, such as `other`, the empty slice or `Gold`, sets it
to `SponsorshipLevelNone` and returns nil; and on nil and on every byte slice the result
is the same from any other prior value `t`. -/
theorem Scan_decode_table (sprint : GoValue → String) (s t : SponsorshipLevel)
    (b : List Byte) :
    Scan sprint s GoValue.nil = (SponsorshipLevelNone, none) ∧
    Scan sprint s (GoValue.bytes (utf8 "none")) = (SponsorshipLevelNone, none) ∧
    Scan sprint s (GoValue.bytes (utf8 "diamond")) = (SponsorshipLevelDiamond, none) ∧
    Scan sprint s (GoValue.bytes (utf8 "platinum")) = (SponsorshipLevelPlatinum, none) ∧
    Scan sprint s (GoValue.bytes (utf8 "gold")) = (SponsorshipLevelGold, none) ∧
    Scan sprint s (GoValue.bytes (utf8 "silver")) = (SponsorshipLevelSilver, none) ∧
    Scan sprint s (GoValue.bytes (utf8 "bronze")) = (SponsorshipLevelBronze, none) ∧
    (b ∉ [utf8 "none", utf8 "diamond", utf8 "platinum", utf8 "gold", utf8 "silver",
        utf8 "bronze"] →
      Scan sprint s (GoValue.bytes b) = (SponsorshipLevelNone, none)) ∧
    Scan sprint s (GoValue.bytes (utf8 "other")) = (SponsorshipLevelNone, none) ∧
    Scan sprint s (GoValue.bytes []) = (SponsorshipLevelNone, none) ∧
    Scan sprint s (GoValue.bytes (utf8 "Gold")) = (SponsorshipLevelNone, none) ∧
    Scan sprint t GoValue.nil = Scan sprint s GoValue.nil ∧
    Scan sprint t (GoValue.bytes b) = Scan sprint s (GoValue.bytes b) := by
  refine ⟨rfl, ?_, ?_, ?_, ?_, ?_, ?_, ?_, ?_, ?_, ?_, rfl, rfl⟩
  · rw [Scan_bytes]; rfl
  · rw [Scan_bytes]; rfl
  · rw [Scan_bytes]; rfl
  · rw [Scan_bytes]; rfl
  · rw [Scan_bytes]; rfl
  · rw [Scan_bytes]; rfl
  · intro hb
    simp only [List.mem_cons, List.mem_singleton, List.not_mem_nil, or_false, not_or] at hb
    obtain ⟨h1, h2, h3, h4, h5, h6⟩ := hb
    rw [Scan_bytes]
    simp [scanLevel, h1, h2, h3, h4, h5, h6]
  · rw [Scan_bytes]; rfl
  · rw [Scan_bytes]; rfl
  · rw [Scan_bytes]; rfl

/-- C10, at the receiver value `SponsorshipLevelGold` and the bytes of `sponsor`, which
name no level. -/
theorem Scan_decode_table_witness :
    Scan (fun _ => "") SponsorshipLevelGold (GoValue.bytes (utf8 "sponsor")) =
      (SponsorshipLevelNone, none) :=
  (Scan_decode_table (fun _ => "") SponsorshipLevelGold SponsorshipLevelNone
    (utf8 "sponsor")).2.2.2.2.2.2.2.1 (by decide)

/-- C11. With `ConvertValue` returning a `string` or a `[]byte` unchanged and formatting
anything else as a string, `Scan` returns the error `failed to scan SponsorshipLevel`
exactly when `src` is neither nil nor a byte slice, and a nil error otherwise. So `Scan`
of the Go string `gold`, which is what `Value` returns for `SponsorshipLevelGold`, of an
integer or of a bool returns that error, and `Scan` of nil or of a byte slice never
does. -/
theorem Scan_error_iff (sprint : GoValue → String) (s : SponsorshipLevel) (src : GoValue) :
    ((Scan sprint s src).2 = some ⟨"failed to scan SponsorshipLevel"⟩ ↔
      (src ≠ GoValue.nil ∧ ∀ b, src ≠ GoValue.bytes b)) ∧
    ((Scan sprint s src).2 = none ↔ (src = GoValue.nil ∨ ∃ b, src = GoValue.bytes b)) ∧
    SponsorshipLevel.Value SponsorshipLevelGold = .ok (GoValue.string "gold", none) ∧
    (Scan sprint s (GoValue.string "gold")).2 = some ⟨"failed to scan SponsorshipLevel"⟩ ∧
    (Scan sprint s (GoValue.int64 3)).2 = some ⟨"failed to scan SponsorshipLevel"⟩ ∧
    (Scan sprint s (GoValue.bool true)).2 = some ⟨"failed to scan SponsorshipLevel"⟩ ∧
    (Scan sprint s GoValue.nil).2 = none ∧
    (∀ b, (Scan sprint s (GoValue.bytes b)).2 = none) := by
  refine ⟨?_, ?_, rfl, rfl, rfl, rfl, rfl, fun _ => rfl⟩
  · cases src <;> simp [Scan, ConvertValue]
  · cases src <;> simp [Scan, ConvertValue]

/-! ## VerifyToken: the success path -/

/-- C12. For every token the verifier accepts, the `*Data` that `VerifyToken` returns is
non-nil and points to the zero value, whatever the token and its claims; the UID is the
subject of the verified token and the error is nil. So two accepted tokens, even under
different providers, yield equal `Data`. -/
theorem VerifyToken_placeholder {Ctx Provider : Type} (oidc other : Oidc Ctx Provider)
    (ctx : Ctx) (token token2 : String) (p p2 : Provider) (idt idt2 : IDToken)
    (hp : oidc.NewProvider ctx issuerURL = .ok p)
    (hv : oidc.Verify p clientID ctx token = .ok idt)
    (hp2 : other.NewProvider ctx issuerURL = .ok p2)
    (hv2 : other.Verify p2 clientID ctx token2 = .ok idt2) :
    (VerifyToken oidc ctx token).1 =
      ⟨idt.Subject, some ⟨⟨0⟩, ⟨0⟩, "", "", "", GoSlice.nil⟩, none⟩ ∧
    (VerifyToken oidc ctx token).1.data ≠ none ∧
    (VerifyToken oidc ctx token).1.data = (VerifyToken other ctx token2).1.data ∧
    (VerifyToken oidc ctx token).1.err = (VerifyToken other ctx token2).1.err ∧
    (VerifyToken other ctx token2).1.uid = idt2.Subject := by
  have h1 : (VerifyToken oidc ctx token).1 =
      ⟨idt.Subject, some ⟨⟨0⟩, ⟨0⟩, "", "", "", GoSlice.nil⟩, none⟩ := by
    simp [VerifyToken, hp, hv]
  have h2 : (VerifyToken other ctx token2).1 =
      ⟨idt2.Subject, some ⟨⟨0⟩, ⟨0⟩, "", "", "", GoSlice.nil⟩, none⟩ := by
    simp [VerifyToken, hp2, hv2]
  rw [h1, h2]
  simp

/-- C12, at two accepted tokens: the scenario token with subject `u1`, and a token with
subject `u2` and no claims. -/
theorem VerifyToken_placeholder_witness :
    (VerifyToken (oidcAccept ⟨"u1", scenarioClaims⟩) () "tok").1 =
      ⟨"u1", some ⟨⟨0⟩, ⟨0⟩, "", "", "", GoSlice.nil⟩, none⟩ ∧
    (VerifyToken (oidcAccept ⟨"u1", scenarioClaims⟩) () "tok").1.data ≠ none ∧
    (VerifyToken (oidcAccept ⟨"u1", scenarioClaims⟩) () "tok").1.data =
      (VerifyToken (oidcAccept ⟨"u2", []⟩) () "tok2").1.data ∧
    (VerifyToken (oidcAccept ⟨"u1", scenarioClaims⟩) () "tok").1.err =
      (VerifyToken (oidcAccept ⟨"u2", []⟩) () "tok2").1.err ∧
    (VerifyToken (oidcAccept ⟨"u2", []⟩) () "tok2").1.uid = "u2" :=
  VerifyToken_placeholder (oidcAccept ⟨"u1", scenarioClaims⟩) (oidcAccept ⟨"u2", []⟩)
    () "tok" "tok2" () () ⟨"u1", scenarioClaims⟩ ⟨"u2", []⟩ rfl rfl rfl rfl

/-! ## SponsorshipLevel.String and SponsorshipLevel.Value -/

theorem Value_of_String_ok (s : SponsorshipLevel) (name : String)
    (h : SponsorshipLevel.String s = .ok name) :
    SponsorshipLevel.Value s = .ok (GoValue.string name, none) := by
  simp only [SponsorshipLevel.Value, h]
  rfl

theorem Value_of_String_error (s : SponsorshipLevel) (e : BoundsError)
    (h : SponsorshipLevel.String s = .error e) :
    SponsorshipLevel.Value s = .error e := by
  simp only [SponsorshipLevel.Value, h]
  rfl

theorem String_out_of_range (s : Int) (h : s < 0 ∨ 6 < s) :
    SponsorshipLevel.String s = .error ⟨s, 7⟩ := by
  unfold SponsorshipLevel.String
  by_cases hneg : s < 0
  · simp only [hneg, if_true]
    rfl
  · have hbig : 6 < s := by omega
    have hlen : sponsorshipLevelNames.length ≤ s.toNat := by
      simp only [sponsorshipLevelNames, List.length_cons, List.length_nil]
      omega
    simp only [hneg, if_false, List.get?_eq_none.2 hlen]
    rfl

/-- C13. For every level `L` among `SponsorshipLevelNone`, `Diamond`, `Platinum`, `Gold`,
`Silver` and `Bronze`, `Value(L)` returns the string `String(L)` with a nil error, and
scanning the bytes of that string into a receiver holding any value `s` sets the receiver
to `L` and returns nil. For `SponsorshipLevelOther` the round trip does not hold: `Value`
returns `other`, and scanning its bytes sets the receiver to `SponsorshipLevelNone`, which
is another level. -/
theorem Value_Scan_roundtrip (sprint : GoValue → String) (s L : SponsorshipLevel)
    (hL : L ∈ [SponsorshipLevelNone, SponsorshipLevelDiamond, SponsorshipLevelPlatinum,
      SponsorshipLevelGold, SponsorshipLevelSilver, SponsorshipLevelBronze]) :
    (∃ name, SponsorshipLevel.String L = .ok name ∧
      SponsorshipLevel.Value L = .ok (GoValue.string name, none) ∧
      Scan sprint s (GoValue.bytes (utf8 name)) = (L, none)) ∧
    SponsorshipLevel.String SponsorshipLevelOther = .ok "other" ∧
    SponsorshipLevel.Value SponsorshipLevelOther = .ok (GoValue.string "other", none) ∧
    Scan sprint s (GoValue.bytes (utf8 "other")) = (SponsorshipLevelNone, none) ∧
    SponsorshipLevelNone ≠ SponsorshipLevelOther := by
  refine ⟨?_, rfl, rfl, rfl, by decide⟩
  simp only [List.mem_cons, List.mem_singleton, List.not_mem_nil, or_false] at hL
  rcases hL with rfl | rfl | rfl | rfl | rfl | rfl
  · exact ⟨"none", rfl, rfl, rfl⟩
  · exact ⟨"diamond", rfl, rfl, rfl⟩
  · exact ⟨"platinum", rfl, rfl, rfl⟩
  · exact ⟨"gold", rfl, rfl, rfl⟩
  · exact ⟨"silver", rfl, rfl, rfl⟩
  · exact ⟨"bronze", rfl, rfl, rfl⟩

/-- C13, at the level `SponsorshipLevelSilver` and a receiver holding
`SponsorshipLevelGold`. -/
theorem Value_Scan_roundtrip_witness :
    ∃ name, SponsorshipLevel.String SponsorshipLevelSilver = .ok name ∧
      SponsorshipLevel.Value SponsorshipLevelSilver = .ok (GoValue.string name, none) ∧
      Scan (fun _ => "") SponsorshipLevelGold (GoValue.bytes (utf8 name)) =
        (SponsorshipLevelSilver, none) :=
  (Value_Scan_roundtrip (fun _ => "") SponsorshipLevelGold SponsorshipLevelSilver
    (by decide)).1

/-- C14. For every `s` with `0 <= s <= 6`, `String` returns entry `s` of the table
`none`, `diamond`, `platinum`, `gold`, `silver`, `bronze`, `other`, and `Value` returns
that string with a nil error; the seven names are pairwise distinct, so `String` is
injective on `0..6`; and for every `s < 0` or `s > 6` the index is out of range: `String`,
and therefore `Value`, returns nothing and aborts with a panic. -/
theorem String_defined_on_levels (s t : SponsorshipLevel) :
    (0 ≤ s ∧ s ≤ 6 →
      ∃ name, ["none", "diamond", "platinum", "gold", "silver", "bronze", "other"].get?
          s.toNat = some name ∧
        SponsorshipLevel.String s = .ok name ∧
        SponsorshipLevel.Value s = .ok (GoValue.string name, none)) ∧
    ["none", "diamond", "platinum", "gold", "silver", "bronze", "other"].Nodup ∧
    (0 ≤ s ∧ s ≤ 6 → 0 ≤ t ∧ t ≤ 6 →
      SponsorshipLevel.String s = SponsorshipLevel.String t → s = t) ∧
    (s < 0 ∨ 6 < s →
      SponsorshipLevel.String s = .error ⟨s, 7⟩ ∧
      aborts (SponsorshipLevel.String s) ∧ aborts (SponsorshipLevel.Value s) ∧
      (¬ ∃ name, SponsorshipLevel.String s = .ok name) ∧
      (¬ ∃ r, SponsorshipLevel.Value s = .ok r)) := by
  refine ⟨?_, by decide, ?_, ?_⟩
  · rintro ⟨h0, h6⟩
    interval_cases s
    · exact ⟨"none", rfl, rfl, rfl⟩
    · exact ⟨"diamond", rfl, rfl, rfl⟩
    · exact ⟨"platinum", rfl, rfl, rfl⟩
    · exact ⟨"gold", rfl, rfl, rfl⟩
    · exact ⟨"silver", rfl, rfl, rfl⟩
    · exact ⟨"bronze", rfl, rfl, rfl⟩
    · exact ⟨"other", rfl, rfl, rfl⟩
  · rintro ⟨h0, h6⟩ ⟨k0, k6⟩ heq
    interval_cases s <;> interval_cases t <;>
      first
        | rfl
        | (exfalso
           simp [SponsorshipLevel.String, sponsorshipLevelNames] at heq)
  · intro h
    have herr := String_out_of_range s h
    have hverr := Value_of_String_error s _ herr
    refine ⟨herr, ⟨_, herr⟩, ⟨_, hverr⟩, ?_, ?_⟩
    · rintro ⟨name, hname⟩
      rw [herr] at hname
      cases hname
    · rintro ⟨r, hr⟩
      rw [hverr] at hr
      cases hr

/-- C14, at the level 6 inside the table and at the values 7 and -1 outside it. -/
theorem String_defined_on_levels_witness :
    (∃ name, ["none", "diamond", "platinum", "gold", "silver", "bronze", "other"].get?
          (6 : SponsorshipLevel).toNat = some name ∧
        SponsorshipLevel.String 6 = .ok name ∧
        SponsorshipLevel.Value 6 = .ok (GoValue.string name, none)) ∧
    (SponsorshipLevel.String 7 = .error ⟨7, 7⟩ ∧ aborts (SponsorshipLevel.Value 7)) ∧
    aborts (SponsorshipLevel.String (-1)) :=
  ⟨(String_defined_on_levels 6 0).1 (by decide),
   ⟨((String_defined_on_levels 7 0).2.2.2 (by decide)).1,
    ((String_defined_on_levels 7 0).2.2.2 (by decide)).2.2.1⟩,
   ((String_defined_on_levels (-1) 0).2.2.2 (by decide)).2.1⟩

/-! ## SponsorshipLevel.Scan: the receiver on failure -/

/-- C15. For every receiver value `v` and every `src`: when `Scan` returns a non-nil
error, the receiver still holds `v` after the call; so when the receiver holds another
value after the call, the error returned is nil. -/
theorem Scan_atomic_on_failure (sprint : GoValue → String) (v : SponsorshipLevel)
    (src : GoValue) :
    ((Scan sprint v src).2 ≠ none → (Scan sprint v src).1 = v) ∧
    ((Scan sprint v src).1 ≠ v → (Scan sprint v src).2 = none) := by
  have key : (Scan sprint v src).2 = none ∨ (Scan sprint v src).1 = v := by
    cases src <;> simp [Scan, ConvertValue]
  constructor
  · intro h
    rcases key with hk | hk
    · exact absurd hk h
    · exact hk
  · intro h
    rcases key with hk | hk
    · exact hk
    · exact absurd hk h

/-- C15, at a receiver holding `SponsorshipLevelGold` and the Go string `silver`. -/
theorem Scan_atomic_on_failure_witness :
    (Scan (fun _ => "") SponsorshipLevelGold (GoValue.string "silver")).1 =
      SponsorshipLevelGold :=
  (Scan_atomic_on_failure (fun _ => "") SponsorshipLevelGold (GoValue.string "silver")).1
    (by decide)

end Conferences
